import Mathlib

/-!
Verification of the Game Boy emulator core (CPU + MMU) against its
natural-language specification.

The definitions below are shallow embeddings of the TypeScript source:

* `class.CPURegister8` / `class.CPURegister16` / `class.CPURegisterPair` —
  masked register cells and the 16-bit pair view.
* `class.CPU.ts` and the two unnamed CPU revisions (`part_000`, `part_001`) —
  the flag accessors and the micro-operations `addPairIntoHL`, `addWordToHL`,
  DAA (`operations[0x27]`), CPL (`operations[0x2f]`), `subtractByteFromA`,
  `compareByteWithA`.
* `class.MMU.ts` — both MMU revisions' `readByte` / `readWord` / `writeByte`
  and the region handlers.

JavaScript numbers are modelled as `Nat`, with `Int` at the places where the
source computes a possibly negative intermediate value.  A JS bitwise mask
`x & 0xffff` on a non-negative number equals `x % 0x10000`; both spellings
are used below, matching whichever reads closest to the source line.
Exceptions (`throw`) are modelled as `none` of an `Option` result.
-/

namespace BamfGB

/-! ## Flag register accessors

From the CPU classes (identical in `class.CPU.ts`, `part_000`, `part_001`):

    get ZeroFlag()  { return !!(this.registers.f.Value & 0x80); }
    set ZeroFlag(v) { if (v) f |= 0x80 else f &= 0x7f }

and analogously N (0x40 / 0xbf), H (0x20 / 0xdf), C (0x10 / 0xef).
`f` is the flags byte. -/

def getZ (f : Nat) : Bool := decide (f &&& 0x80 ≠ 0)

def setZ (f : Nat) (b : Bool) : Nat := if b then f ||| 0x80 else f &&& 0x7f

def getN (f : Nat) : Bool := decide (f &&& 0x40 ≠ 0)

def setN (f : Nat) (b : Bool) : Nat := if b then f ||| 0x40 else f &&& 0xbf

def getH (f : Nat) : Bool := decide (f &&& 0x20 ≠ 0)

def setH (f : Nat) (b : Bool) : Nat := if b then f ||| 0x20 else f &&& 0xdf

def getC (f : Nat) : Bool := decide (f &&& 0x10 ≠ 0)

def setC (f : Nat) (b : Bool) : Nat := if b then f ||| 0x10 else f &&& 0xef

/-! ## Register cells

`class.CPURegister8`: reads and writes are masked with `& 0xff`.
`class.CPURegister16`: masked with `& 0xffff`. -/

def reg8Write (n : Nat) : Nat := n &&& 0xff

def reg8Read (value : Nat) : Nat := value &&& 0xff

def reg16Write (n : Nat) : Nat := n &&& 0xffff

/-! ## The register pair view

`class.CPURegisterPair.ts`:

    get Value() {
      this.value = ((this.high.Value << 8) | this.low.Value) & 0xffff;
      return this.value;
    }
    set Value(n) {
      this.value = n & 0xffff;
      this.high.Value = (n & 0xff00) >> 8;
      this.low.Value = n & 0xff;
    }

The cached `this.value` field is recomputed on every read, so the observable
state is the two 8-bit cells; the setter is the pair of stored cell values
(each one masked again by the `CPURegister8` setter). -/

def pairSetValue (n : Nat) : Nat × Nat :=
  (reg8Write ((n &&& 0xff00) >>> 8), reg8Write (n &&& 0xff))

def pairGetValue (high low : Nat) : Nat :=
  ((reg8Read high <<< 8) ||| reg8Read low) &&& 0xffff

/-! ## ADD HL, rr

`class.CPU.ts`, `addPairIntoHL` (the carry line compares against `0xfff`):

    this.SubtractFlag = false;
    this.HalfCarryFlag = (hl & 0xfff) + (pair & 0xfff) > 0xfff;
    this.CarryFlag = (hl & 0xffff) + (pair & 0xffff) > 0xfff;
    this.registers.hl.Value += pair.Value;

Result is the pair `(new HL, new F)`. -/

def addPairIntoHL (hl rr f : Nat) : Nat × Nat :=
  let f1 := setN f false
  let f2 := setH f1 (decide ((hl &&& 0xfff) + (rr &&& 0xfff) > 0xfff))
  let f3 := setC f2 (decide ((hl &&& 0xffff) + (rr &&& 0xffff) > 0xfff))
  (reg16Write (hl + rr), f3)

/-- `part_001`, `addWordToHL`:

    const hl = this.registers.hl.Value;
    value &= 0xffff;
    this.SubtractFlag = false;
    this.HalfCarryFlag = (hl & 0xfff) + (value & 0xfff) > 0xfff;
    this.CarryFlag = hl + value > 0xffff;
    this.registers.hl.Value += value; -/
def addWordToHL (hl value f : Nat) : Nat × Nat :=
  let value := value &&& 0xffff
  let f1 := setN f false
  let f2 := setH f1 (decide ((hl &&& 0xfff) + (value &&& 0xfff) > 0xfff))
  let f3 := setC f2 (decide (hl + value > 0xffff))
  (reg16Write (hl + value), f3)

/-! ## CPL (opcode 0x2f, `part_001`)

    this.HalfCarryFlag = false;
    this.SubtractFlag = false;
    this.registers.a.Value ^= 0xff; -/

def cpl (a f : Nat) : Nat × Nat :=
  let f1 := setH f false
  let f2 := setN f1 false
  (reg8Write (reg8Read a ^^^ 0xff), f2)

/-! ## DAA (opcode 0x27)

`part_001`, `operations[0x27].fn`:

    const sign = this.SubtractFlag ? -1 : 1;
    let correction = 0;
    if (this.CarryFlag || (!this.SubtractFlag && this.registers.a.Value > 0x99)) {
      correction |= 0x60;
      this.CarryFlag = true;
    }
    if (this.HalfCarryFlag || (!this.SubtractFlag && (this.registers.a.Value & 0x0f) > 0x09)) {
      correction |= 0x06;
    }
    this.registers.a.Value += correction * sign;
    this.HalfCarryFlag = false;
    this.ZeroFlag = this.registers.a.Value === 0;

`a` is the accumulator byte, `f` the flags byte; the result is `(A, F)` after
the instruction.  The JS setter `a.Value = x` masks with `& 0xff`, which on a
possibly negative `x` is the value modulo 256. -/

def daa (a f : Nat) : Nat × Nat :=
  let sign : Int := if getN f then -1 else 1
  let s1 : Nat × Nat :=
    if getC f || (!(getN f) && decide (a > 0x99)) then (0x60, setC f true) else (0, f)
  let correction : Nat :=
    if getH s1.2 || (!(getN s1.2) && decide ((a &&& 0x0f) > 0x09)) then s1.1 ||| 0x06 else s1.1
  let a2 := (((a : Int) + (correction : Int) * sign) % 256).toNat
  let f2 := setH s1.2 false
  let f3 := setZ f2 (decide (a2 = 0))
  (a2, f3)

/-- `part_000`, `operations[0x27].fn`: identical to the `part_001` revision
except that the first branch does NOT contain `this.CarryFlag = true;`:

    if (this.CarryFlag || (!this.SubtractFlag && this.registers.a.Value > 0x99)) {
      correction |= 0x60;
    } -/
def daaPart000 (a f : Nat) : Nat × Nat :=
  let sign : Int := if getN f then -1 else 1
  let c1 : Nat :=
    if getC f || (!(getN f) && decide (a > 0x99)) then 0x60 else 0
  let correction : Nat :=
    if getH f || (!(getN f) && decide ((a &&& 0x0f) > 0x09)) then c1 ||| 0x06 else c1
  let a2 := (((a : Int) + (correction : Int) * sign) % 256).toNat
  let f2 := setH f false
  let f3 := setZ f2 (decide (a2 = 0))
  (a2, f3)

/-- Modelled from the spec's words (section 4.3.3), for comparison with the
source: the DAA algorithm as the claim states it.

    correction = 0
    setC = current C
    if N == 0:
        if H or (A & 0x0F) > 9: correction |= 0x06
        if C or A > 0x99:       correction |= 0x60; setC = 1
        A <- (A + correction) & 0xFF
    else:
        if H: correction |= 0x06
        if C: correction |= 0x60
        A <- (A - correction) & 0xFF
    Z <- (A == 0); H <- 0; C <- setC; N untouched. -/
def daaSpec (a f : Nat) : Nat × Nat :=
  if getN f = false then
    let correction :=
      (if getH f || decide ((a &&& 0x0f) > 9) then 0x06 else 0) |||
      (if getC f || decide (a > 0x99) then 0x60 else 0)
    let newC := getC f || decide (a > 0x99)
    let a2 := (a + correction) % 256
    (a2, setZ (setH (setC f newC) false) (decide (a2 = 0)))
  else
    let correction : Nat :=
      (if getH f then 0x06 else 0) ||| (if getC f then 0x60 else 0)
    let a2 := (((a : Int) - (correction : Int)) % 256).toNat
    (a2, setZ (setH (setC f (getC f)) false) (decide (a2 = 0)))

/-! ## SUB n and CP n

`part_001`, `subtractByteFromA`:

    const a = this.registers.a.Value;
    value &= 0xff;
    this.registers.a.Value = a - value;
    this.CarryFlag = a - value < 0;
    this.HalfCarryFlag = (a & 0xf) - (value & 0xf) < 0;
    this.ZeroFlag = this.registers.a.Value === 0;
    this.SubtractFlag = true;

Result is `(A, F)` after the instruction. -/

def subtractByteFromA (a v f : Nat) : Nat × Nat :=
  let value := v &&& 0xff
  let a2 := (((a : Int) - value) % 256).toNat
  let f1 := setC f (decide ((a : Int) - value < 0))
  let f2 := setH f1 (decide (((a &&& 0xf : Nat) : Int) - ((value &&& 0xf : Nat) : Int) < 0))
  let f3 := setZ f2 (decide (a2 = 0))
  let f4 := setN f3 true
  (a2, f4)

/-- `part_001`, `compareByteWithA`:

    const a = this.registers.a.Value;
    value &= 0xff;
    this.CarryFlag = a - value < 0;
    this.HalfCarryFlag = (a & 0xf) - (value & 0xf) < 0;
    this.ZeroFlag = a - value === 0;
    this.SubtractFlag = true;

The accumulator is not written; the result is `(A, F)` after the
instruction, with `A` returned unchanged. -/
def compareByteWithA (a v f : Nat) : Nat × Nat :=
  let value := v &&& 0xff
  let f1 := setC f (decide ((a : Int) - value < 0))
  let f2 := setH f1 (decide (((a &&& 0xf : Nat) : Int) - ((value &&& 0xf : Nat) : Int) < 0))
  let f3 := setZ f2 (decide ((a : Int) - value = 0))
  let f4 := setN f3 true
  (a, f4)

/-! ## MMU

`class.MMU.ts` packs two revisions of the class.  Both own the same buffers:

    BIOS        : Uint8Array(256)
    ROM         : Uint8Array(16384)
    workingRAM  : Uint8Array(8192)
    externalRAM : Uint8Array(8192)
    zeroPageRAM : Uint8Array(128)

plus the `inBIOS` flag.  Buffers are modelled as total functions; an access
checks the `Uint8Array` length the way JS does: an out-of-range read yields
`undefined` (the later revision's `readByte` then throws on the null check,
modelled `none`), an out-of-range write is silently dropped, and a stored
element is the value modulo 256. -/

structure MMUState where
  inBIOS : Bool
  bios : Nat → Nat
  rom : Nat → Nat
  workingRAM : Nat → Nat
  externalRAM : Nat → Nat
  zeroPageRAM : Nat → Nat

/-- `Uint8Array` element read: in range gives the element, out of range gives
`undefined`, which every consumer in the source turns into a thrown error. -/
def uread (buf : Nat → Nat) (size idx : Nat) : Option Nat :=
  if idx < size then some (buf idx) else none

/-- `Uint8Array` element write: stored value is taken modulo 256, an
out-of-range index is ignored. -/
def uwrite (buf : Nat → Nat) (size idx v : Nat) : Nat → Nat :=
  if idx < size then (fun i => if i = idx then v % 256 else buf i) else buf

/-- The read dispatch shared by both MMU revisions: a switch on
`address & 0xf000` (the sixteen region handlers), with the `0xf000` region
further switched on `address & 0x0f00`.  `none` models a thrown error
(VRAM / OAM / I-O control are unimplemented and throw).

This is the body of the first revision's `readByte` (which does not mask its
address), and of the second revision's handler map
`handle0000` / `handle1000` / `handle4000` / `handle8000` / `handleA000` /
`handleC000` / `handleF000` on their read paths (`writeValue == null`). -/
def dispatchRead (st : MMUState) (address : Nat) : Option Nat :=
  let hi := address &&& 0xf000
  if hi = 0x0000 then
    if st.inBIOS && decide (address < 0x0100) then uread st.bios 256 address
    else uread st.rom 16384 address
  else if hi ≤ 0x3000 then uread st.rom 16384 address
  else if hi ≤ 0x7000 then uread st.rom 16384 address
  else if hi ≤ 0x9000 then none
  else if hi ≤ 0xb000 then uread st.externalRAM 8192 (address &&& 0x1fff)
  else if hi ≤ 0xe000 then uread st.workingRAM 8192 (address &&& 0x1fff)
  else
    let address2 := address &&& 0x0f00
    if address2 ≤ 0xd00 then uread st.workingRAM 8192 (address &&& 0x1fff)
    else if address2 = 0xe00 then
      if address < 0xfea0 then none else some 0
    else
      if address ≥ 0xff80 then uread st.zeroPageRAM 128 (address &&& 0x7f)
      else none

/-- Second MMU revision, `readByte`: masks the address to 16 bits
(`address &= 0xffff`, i.e. modulo 2^16) and dispatches. -/
def readByte (st : MMUState) (address : Nat) : Option Nat :=
  dispatchRead st (address % 0x10000)

/-- Second MMU revision, `readWord`:

    address &= 0xffff;
    return this.readByte(address) + (this.readByte(address + 1) << 8); -/
def readWord (st : MMUState) (address : Nat) : Option Nat :=
  let address := address % 0x10000
  (readByte st address).bind fun lo =>
    (readByte st (address + 1)).map fun hi => lo + (hi <<< 8)

/-- First MMU revision, `readByte`: same dispatch, but the address is not
masked. -/
def readByteRev1 (st : MMUState) (address : Nat) : Option Nat :=
  dispatchRead st address

/-- First MMU revision, `readWord`:

    return this.readByte(address) + (this.readByte(address) << 8);

both bytes are fetched from the same address. -/
def readWordRev1 (st : MMUState) (address : Nat) : Option Nat :=
  (readByteRev1 st address).bind fun lo =>
    (readByteRev1 st address).map fun hi => lo + (hi <<< 8)

/-- Second MMU revision, `writeByte`:

    writeValue &= 0xff;
    this.map[address & 0xf000](address, writeValue);

with the write paths of the handlers.  Note `handle1000` and `handle4000`
write `this.ROM[address] = address;` — the address, not the value.  `none`
models a thrown error (VRAM / OAM / I-O control). -/
def writeByte (st : MMUState) (address v : Nat) : Option MMUState :=
  let v := v % 256
  let hi := address &&& 0xf000
  if hi = 0x0000 then
    if st.inBIOS && decide (address < 0x0100) then
      some { st with bios := uwrite st.bios 256 address v }
    else
      some { st with rom := uwrite st.rom 16384 address v }
  else if hi ≤ 0x3000 then
    some { st with rom := uwrite st.rom 16384 address address }
  else if hi ≤ 0x7000 then
    some { st with rom := uwrite st.rom 16384 address address }
  else if hi ≤ 0x9000 then none
  else if hi ≤ 0xb000 then
    some { st with externalRAM := uwrite st.externalRAM 8192 (address &&& 0x1fff) v }
  else if hi ≤ 0xe000 then
    some { st with workingRAM := uwrite st.workingRAM 8192 (address &&& 0x1fff) v }
  else
    let address2 := address &&& 0x0f00
    if address2 ≤ 0xd00 then
      some { st with workingRAM := uwrite st.workingRAM 8192 (address &&& 0x1fff) v }
    else if address2 = 0xe00 then
      if address < 0xfea0 then none else some st
    else
      if address ≥ 0xff80 then
        some { st with zeroPageRAM := uwrite st.zeroPageRAM 128 (address &&& 0x7f) v }
      else none

/-- The second revision's constructor state, with the BIOS image abstracted
to zeroes (its contents play no role in the claims considered here). -/
def mmuInit : MMUState :=
  { inBIOS := true
    bios := fun _ => 0
    rom := fun _ => 0
    workingRAM := fun _ => 0
    externalRAM := fun _ => 0
    zeroPageRAM := fun _ => 0 }

/-- A state used to exercise `readWord`: BIOS unmapped, ROM holding
`0x34` at address 0 and `0x12` at address 1. -/
def mmuWordState : MMUState :=
  { inBIOS := false
    bios := fun _ => 0
    rom := fun i => if i = 0 then 0x34 else if i = 1 then 0x12 else 0
    workingRAM := fun _ => 0
    externalRAM := fun _ => 0
    zeroPageRAM := fun _ => 0 }

/-! ## The opcode tables

`class.CPU.ts` constructor: `this.operations` is an object literal with one
entry for each key `0x00` … `0xff` (256 entries, verified mechanically
against the source: 256 distinct keys, from 0x00 to 0xff).  202 of them are
explicit padding stubs

    { mnemonic: "", description: "", fn: () => { throw new Error("Instruction not implemented."); } }

namely 0x27, 0x28, 0x2f, 0x30, 0x34 - 0x38, 0x3f and all of 0x40 - 0xff;
the rest carry an implemented operation.  The CB table is

    this.cbOperations = {};

an empty object: looking up any CB opcode yields `undefined`. -/

inductive OpEntry where
  | defined : OpEntry
  | unimplementedStub : OpEntry
deriving DecidableEq

/-- The opcode bytes whose `class.CPU.ts` primary-table entry is the explicit
"Instruction not implemented." stub. -/
def isStubOpcode (b : Nat) : Bool :=
  b ∈ [0x27, 0x28, 0x2f, 0x30, 0x34, 0x35, 0x36, 0x37, 0x38, 0x3f] ||
    (0x40 ≤ b && b ≤ 0xff)

/-- The primary opcode table of `class.CPU.ts` as a lookup function:
object-literal lookup yields the entry for keys 0x00 - 0xff and `undefined`
(`none`) for anything else. -/
def operations (b : Nat) : Option OpEntry :=
  if b < 256 then
    some (if isStubOpcode b then OpEntry.unimplementedStub else OpEntry.defined)
  else none

/-- The CB-prefixed table of `class.CPU.ts` (also of the `part_000` and
`part_001` revisions): the empty object literal, every lookup is
`undefined`. -/
def cbOperations (_ : Nat) : Option OpEntry := none

end BamfGB


namespace BamfGB

/-! ## Bitwise-to-arithmetic bridge lemmas -/

/-- The 0xff mask is reduction modulo 256. -/
theorem andFF_eq (x : Nat) : x &&& 0xff = x % 256 :=
  Nat.and_pow_two_sub_one_eq_mod x 8

/-- The 0xffff mask is reduction modulo 2^16. -/
theorem andFFFF_eq (x : Nat) : x &&& 0xffff = x % 0x10000 :=
  Nat.and_pow_two_sub_one_eq_mod x 16

/-- Left shift by 8 is multiplication by 256. -/
theorem shiftLeft8_eq (x : Nat) : x <<< 8 = x * 256 := by
  rw [Nat.shiftLeft_eq]

/-- Right shift by 8 is division by 256. -/
theorem shiftRight8_eq (x : Nat) : x >>> 8 = x / 256 := by
  rw [Nat.shiftRight_eq_div_pow]

/-- Extracting the high byte: mask with 0xff00 then shift right by 8. -/
theorem andFF00_shr8 (x : Nat) : (x &&& 0xff00) >>> 8 = x / 256 % 256 := by
  have h : x / 256 % 256 = (x >>> 8) &&& 0xff := by
    rw [shiftRight8_eq, andFF_eq]
  rw [h]
  apply Nat.eq_of_testBit_eq
  intro j
  rw [Nat.testBit_shiftRight, Nat.testBit_and, Nat.testBit_and, Nat.testBit_shiftRight]
  congr 1
  by_cases hj : j < 8
  · interval_cases j <;> decide
  · have h1 : (0xff00 : Nat) < 2 ^ (8 + j) := by
      calc (0xff00 : Nat) < 2 ^ 16 := by norm_num
        _ ≤ 2 ^ (8 + j) := Nat.pow_le_pow_right (by norm_num) (by omega)
    have h2 : (0xff : Nat) < 2 ^ j := by
      calc (0xff : Nat) < 2 ^ 8 := by norm_num
        _ ≤ 2 ^ j := Nat.pow_le_pow_right (by norm_num) (by omega)
    rw [Nat.testBit_lt_two_pow h1, Nat.testBit_lt_two_pow h2]

/-- A disjoint bitwise or is an addition: the low byte fits under the
shifted high part. -/
theorem orLow_eq (x y : Nat) (hy : y < 256) : x * 256 ||| y = x * 256 + y := by
  have h := Nat.mul_add_lt_is_or (i := 8) (b := y) (by norm_num; omega) x
  rw [Nat.mul_comm x 256]
  norm_num at h
  exact h.symm

/-- Helper: a byte-sized value is unchanged by the 0xff mask. -/
theorem and255_eq (v : Nat) (hv : v < 256) : v &&& 0xff = v := by
  rw [andFF_eq]
  omega

/-! ## Flag-accessor commuting lemmas (over byte-sized flag values) -/

set_option maxRecDepth 4096 in
/-- Writing the Carry bit does not change the Subtract bit. -/
theorem getN_setC : ∀ f < 256, ∀ b : Bool, getN (setC f b) = getN f := by decide

set_option maxRecDepth 4096 in
/-- Writing the Carry bit does not change the Half-carry bit. -/
theorem getH_setC : ∀ f < 256, ∀ b : Bool, getH (setC f b) = getH f := by decide

set_option maxRecDepth 4096 in
/-- Clearing an already clear Carry bit is the identity. -/
theorem setC_false_id : ∀ f < 256, getC f = false → setC f false = f := by decide

/-! ## Register-pair laws -/

/-- Round-trip helper: writing a 16-bit value then reading it back. -/
theorem pairRoundTripAux (v : Nat) (hv : v < 0x10000) :
    pairGetValue (pairSetValue v).1 (pairSetValue v).2 = v := by
  simp only [pairGetValue, pairSetValue, reg8Read, reg8Write, andFF00_shr8,
    andFF_eq, shiftLeft8_eq]
  rw [orLow_eq _ _ (by omega), andFFFF_eq]
  omega

/-- Halves helper: writing the two 8-bit halves then reading the pair. -/
theorem pairHalvesAux (h l : Nat) (hh : h < 256) (hl : l < 256) :
    pairGetValue (reg8Write h) (reg8Write l) = (h <<< 8) ||| l := by
  simp only [pairGetValue, reg8Read, reg8Write, andFF_eq, shiftLeft8_eq]
  rw [orLow_eq _ _ (by omega), orLow_eq _ _ hl, andFFFF_eq]
  omega

/-- Reconstruction helper: the observed pair value is the reconstruction
from the constituent byte cells. -/
theorem pairReconAux (h l : Nat) (hh : h < 256) (hl : l < 256) :
    pairGetValue h l = (reg8Read h <<< 8) ||| reg8Read l := by
  simp only [pairGetValue, reg8Read, andFF_eq, shiftLeft8_eq]
  rw [orLow_eq _ _ (by omega), andFFFF_eq]
  omega

/-! ## DAA follows the spec algorithm (`part_001` revision) -/

/-- The `part_001` revision of DAA computes exactly the spec's algorithm,
for every accumulator byte and flags byte. -/
theorem daa_matches_spec (a f : Nat) (ha : a < 256) (hf : f < 256) :
    daa a f = daaSpec a f := by
  have hgN := getN_setC f hf true
  have hgH := getH_setC f hf true
  have hCf := setC_false_id f hf
  have e1 : (96 : Nat) ||| 6 = 102 := by decide
  have e2 : (6 : Nat) ||| 96 = 102 := by decide
  have e3 : (0 : Nat) ||| 6 = 6 := by decide
  have e4 : (6 : Nat) ||| 0 = 6 := by decide
  have e5 : (0 : Nat) ||| 96 = 96 := by decide
  have e6 : (96 : Nat) ||| 0 = 96 := by decide
  have e7 : (0 : Nat) ||| 0 = 0 := by decide
  cases hN : getN f with
  | false =>
    simp only [daa, daaSpec, hN, hgN, hgH, Bool.not_false, Bool.true_and,
      Bool.false_eq_true, apply_ite Prod.snd, apply_ite Prod.fst,
      apply_ite getH, apply_ite getN, ite_self, mul_one, eq_self_iff_true,
      if_true, if_false]
    cases hA : (getC f || decide (a > 0x99)) with
    | false =>
      have hc : getC f = false := by revert hA; cases getC f <;> simp
      simp only [hA, Bool.false_eq_true, if_false, hCf hc]
      cases hB : (getH f || decide ((a &&& 0x0f) > 9)) with
      | false =>
        simp only [hB, Bool.false_eq_true, if_false, e7, Prod.mk.injEq]
        refine ⟨by omega, ?_⟩
        congr 1
      | true =>
        simp only [hB, eq_self_iff_true, if_true, e3, e4, Prod.mk.injEq]
        refine ⟨by omega, ?_⟩
        congr 1
    | true =>
      simp only [hA, eq_self_iff_true, if_true]
      cases hB : (getH f || decide ((a &&& 0x0f) > 9)) with
      | false =>
        simp only [hB, Bool.false_eq_true, if_false, e5, e6, Prod.mk.injEq]
        refine ⟨by omega, ?_⟩
        congr 1
      | true =>
        simp only [hB, eq_self_iff_true, if_true, e1, e2, Prod.mk.injEq]
        refine ⟨by omega, ?_⟩
        congr 1
  | true =>
    simp only [daa, daaSpec, hN, hgN, hgH, Bool.not_true, Bool.false_and,
      Bool.or_false, Bool.true_eq_false, if_false,
      apply_ite Prod.snd, apply_ite Prod.fst, apply_ite getH, apply_ite getN,
      ite_self]
    cases hc : getC f with
    | false =>
      simp only [hc, Bool.false_eq_true, if_false, hCf hc]
      cases hB : getH f with
      | false =>
        simp only [hB, Bool.false_eq_true, if_false, e7, Prod.mk.injEq]
        refine ⟨by omega, ?_⟩
        congr 1
      | true =>
        simp only [hB, eq_self_iff_true, if_true, e3, e4, Prod.mk.injEq]
        refine ⟨by omega, ?_⟩
        congr 1
    | true =>
      simp only [hc, eq_self_iff_true, if_true]
      cases hB : getH f with
      | false =>
        simp only [hB, Bool.false_eq_true, if_false, e5, e6, Prod.mk.injEq]
        refine ⟨by omega, ?_⟩
        congr 1
      | true =>
        simp only [hB, eq_self_iff_true, if_true, e1, e2, Prod.mk.injEq]
        refine ⟨by omega, ?_⟩
        congr 1

/-! ## The claims -/

/-- C1: executing `ADD HL, rr` through `class.CPU.ts`'s `addPairIntoHL` at
HL = 0x0800, rr = 0x0800 sets the Carry flag although HL + rr = 0x1000 does
not exceed 0xFFFF — the source compares the 16-bit sum against 0xFFF.  The
`part_001` revision's `addWordToHL` clears Carry on the same input, as the
claim requires.  (The half-carry is genuinely produced here: bit 11
overflows, 0x800 + 0x800 > 0xFFF.) -/
theorem addPairIntoHL_carry_bug :
    getC (addPairIntoHL 0x0800 0x0800 0x00).2 = true ∧
    ¬ (0x0800 + 0x0800 > 0xffff) ∧
    getC (addWordToHL 0x0800 0x0800 0x00).2 = false ∧
    (addPairIntoHL 0x0800 0x0800 0x00).1 = 0x1000 ∧
    (addWordToHL 0x0800 0x0800 0x00).1 = 0x1000 := by decide

/-- C2: writing 0x00FF to a register pair through `CPURegisterPair`'s
`set Value` (the path taken by `POP AF`, whose `popFromStackIntoRegister`
does `register.Value = this.mmu.readWord(sp)` with no masking) stores 0xFF
into the low register: the low nibble of F reads back as 0xF, not 0. -/
theorem pairSetValue_low_nibble_not_masked :
    (pairSetValue 0x00ff).2 = 0xff ∧
    (pairSetValue 0x00ff).2 &&& 0x0f = 0x0f ∧
    (0x0f : Nat) ≠ 0 := by decide

/-- C3: with ROM bytes 0x34 at address 0 and 0x12 at address 1 and the BIOS
unmapped, the first MMU revision's `readWord 0` returns 0x3434 — it reads
the same byte twice — while the second revision's `readWord 0` returns the
little-endian 0x1234 the claim states. -/
theorem readWordRev1_not_little_endian :
    readWordRev1 mmuWordState 0x0000 = some 0x3434 ∧
    readWord mmuWordState 0x0000 = some 0x1234 ∧
    (0x3434 : Nat) ≠ 0x1234 := by decide

/-- C4: from the constructor state, `writeByte 0x1000 0x42` lands in
`handle1000`, which stores the ADDRESS instead of the value
(`this.ROM[address] = address`), so reading address 0x1000 back yields
0x1000 mod 256 = 0x00, not 0x42. -/
theorem writeByte_rom_region_bug :
    (writeByte mmuInit 0x1000 0x42).bind (fun st => readByte st 0x1000) =
      some 0x00 ∧
    (0x00 : Nat) ≠ 0x42 := by decide

/-- C5: executing DAA through the `part_000` revision at A = 0xA0 with all
flags clear applies the 0x60 correction (A becomes 0x00) but never forces
the Carry flag to 1, where the claim's algorithm sets C because A > 0x99;
the `part_001` revision and the spec algorithm do set it. -/
theorem daaPart000_carry_bug :
    getC (daaPart000 0xa0 0x00).2 = false ∧
    getC (daaSpec 0xa0 0x00).2 = true ∧
    getC (daa 0xa0 0x00).2 = true ∧
    (daaPart000 0xa0 0x00).1 = 0x00 ∧
    (daaSpec 0xa0 0x00).1 = 0x00 := by decide

/-- C6: executing CPL (`part_001`, `operations[0x2f]`) at A = 0x35,
F = 0x90 complements A and leaves Z and C untouched, but CLEARS the
Subtract and Half-carry flags where the claim requires both set to 1. -/
theorem cpl_clears_n_and_h :
    (cpl 0x35 0x90).1 = 0xca ∧
    getN (cpl 0x35 0x90).2 = false ∧
    getH (cpl 0x35 0x90).2 = false ∧
    getZ (cpl 0x35 0x90).2 = getZ 0x90 ∧
    getC (cpl 0x35 0x90).2 = getC 0x90 := by decide

/-- C7: CP n (`compareByteWithA`) produces exactly the flags register that
SUB n (`subtractByteFromA`) produces from the same starting state, leaves
the accumulator unchanged, and those flags are C = A < n,
H = (A and 0xF) < (n and 0xF), Z = ((A - n) mod 256 == 0), N = 1 written
into the starting F. -/
theorem compare_matches_subtract (a v f : Nat) (ha : a < 256) (hv : v < 256) :
    (compareByteWithA a v f).2 = (subtractByteFromA a v f).2 ∧
    (compareByteWithA a v f).1 = a ∧
    (compareByteWithA a v f).2 =
      setN (setZ (setH (setC f (decide (a < v)))
        (decide (a &&& 0xf < v &&& 0xf)))
        (decide (((a : Int) - (v : Int)) % 256 = 0))) true := by
  have hv255 : v &&& 0xff = v := and255_eq v hv
  have e1 : decide ((a : Int) - (v : Int) < 0) = decide (a < v) :=
    decide_eq_decide.mpr (by omega)
  have e2 : decide (((a &&& 0xf : Nat) : Int) - ((v &&& 0xf : Nat) : Int) < 0)
      = decide (a &&& 0xf < v &&& 0xf) := decide_eq_decide.mpr (by omega)
  have e3 : decide (((((a : Int) - (v : Int)) % 256).toNat) = 0)
      = decide ((a : Int) - (v : Int) = 0) := decide_eq_decide.mpr (by omega)
  have e4 : decide ((a : Int) - (v : Int) = 0)
      = decide (((a : Int) - (v : Int)) % 256 = 0) := decide_eq_decide.mpr (by omega)
  refine ⟨?_, ?_, ?_⟩
  · simp only [compareByteWithA, subtractByteFromA, hv255]
    rw [e3]
  · simp only [compareByteWithA]
  · simp only [compareByteWithA, hv255]
    rw [e1, e2, e4]

/-- Witness for C7 at A = 0x05, n = 0x07, F = 0x00. -/
theorem compare_matches_subtract_witness :
    0x05 < 256 ∧ 0x07 < 256 ∧
    ((compareByteWithA 0x05 0x07 0x00).2 = (subtractByteFromA 0x05 0x07 0x00).2 ∧
    (compareByteWithA 0x05 0x07 0x00).1 = 0x05 ∧
    (compareByteWithA 0x05 0x07 0x00).2 =
      setN (setZ (setH (setC 0x00 (decide ((0x05 : Nat) < 0x07)))
        (decide ((0x05 : Nat) &&& 0xf < (0x07 : Nat) &&& 0xf)))
        (decide (((0x05 : Int) - (0x07 : Int)) % 256 = 0))) true) :=
  ⟨by decide, by decide,
    compare_matches_subtract 0x05 0x07 0x00 (by decide) (by decide)⟩

/-- C8: the register-pair laws — a 16-bit write then read returns the
value; writing bytes `(h, l)` into the halves then reading the pair gives
`(h <<< 8) ||| l`; and the observed pair value is always the reconstruction
from the constituent 8-bit cells. -/
theorem registerPair_laws (v h l : Nat)
    (hv : v < 0x10000) (hh : h < 256) (hl : l < 256) :
    pairGetValue (pairSetValue v).1 (pairSetValue v).2 = v ∧
    pairGetValue (reg8Write h) (reg8Write l) = (h <<< 8) ||| l ∧
    pairGetValue h l = (reg8Read h <<< 8) ||| reg8Read l :=
  ⟨pairRoundTripAux v hv, pairHalvesAux h l hh hl, pairReconAux h l hh hl⟩

/-- Witness for C8 at v = 0x1234, h = 0xAB, l = 0xCD. -/
theorem registerPair_laws_witness :
    0x1234 < 0x10000 ∧ 0xab < 256 ∧ 0xcd < 256 ∧
    (pairGetValue (pairSetValue 0x1234).1 (pairSetValue 0x1234).2 = 0x1234 ∧
    pairGetValue (reg8Write 0xab) (reg8Write 0xcd) = ((0xab : Nat) <<< 8) ||| 0xcd ∧
    pairGetValue 0xab 0xcd = (reg8Read 0xab <<< 8) ||| reg8Read 0xcd) :=
  ⟨by decide, by decide, by decide,
    registerPair_laws 0x1234 0xab 0xcd (by decide) (by decide) (by decide)⟩

/-- C9 counterexample: the CB-prefixed table is the empty object literal, so
its entry for opcode 0x00 is absent (`undefined`), not a defined operation
or an explicit Unimplemented marker. -/
theorem cbTable_entry_absent : cbOperations 0x00 = none := rfl

/-- C9 (amended): the primary table has an entry — a defined operation or
an explicit Unimplemented stub — exactly for the 256 opcode bytes
0x00 - 0xFF, while the CB-prefixed table is empty: every CB lookup is
absent. -/
theorem opcodeTables_amended :
    ∀ b : Nat, ((operations b).isSome ↔ b < 256) ∧ cbOperations b = none := by
  intro b
  refine ⟨?_, rfl⟩
  unfold operations
  by_cases hb : b < 256
  · simp [hb]
  · simp [hb]

/-- C10: `readByte` depends on its address only modulo 2^16 (the source
masks with `address &= 0xffff` before dispatch), and `readWord 0xFFFF`
fetches its high byte from address 0x0000 — the address wraps — rather
than failing. -/
theorem readByte_wraps_address :
    ∀ (st : MMUState) (addr : Nat),
      readByte st addr = readByte st (addr % 0x10000) ∧
      readWord st 0xffff =
        (readByte st 0xffff).bind fun lo =>
          (readByte st 0x0000).map fun hi => lo + (hi <<< 8) := by
  intro st addr
  constructor
  · unfold readByte
    have h : addr % 0x10000 % 0x10000 = addr % 0x10000 := by omega
    rw [h]
  · rfl

end BamfGB
